import Mathlib

/-!
Shallow embedding of the IPTV playlist gateway (`server.js` / its extended
variant with the sports endpoints) and proofs about it.

HTTP effects are modelled with oracles:
* a catalog oracle `cf : String → String → Option Catalog`
  (apikey → region → parsed catalog, `none` = non-ok status / network /
  JSON failure of `GET {base}/{apikey}/catalog/tv/{region}.json`);
* a per-channel oracle `fa : String → String → Nat → Option M3uResponse`
  (apikey → channelId → 1-indexed attempt number → parsed body, `none` =
  that attempt of `GET {base}/{apikey}/meta/tv/{channelId}` failed).

The in-memory cache (a JS object) and the multi-region `Map` are modelled
as insertion-ordered association lists.
-/

namespace IPTV

/-- One element of `meta.streams`: `{ url }`. -/
structure StreamObj where
  url : String
deriving DecidableEq, Repr

/-- `meta` object of a channel-metadata response.  `genres` and `streams`
are `Option`s because the JS code guards against them being `undefined`. -/
structure ChannelMeta where
  tvgId : String
  logo : String
  genres : Option (List String)
  name : String
  streams : Option (List StreamObj)
deriving DecidableEq, Repr

/-- A parsed channel-metadata response body; `meta` may be missing. -/
structure M3uResponse where
  meta : Option ChannelMeta
deriving DecidableEq, Repr

/-- A catalog stub: `{ id }`. -/
structure ChannelStub where
  id : String
deriving DecidableEq, Repr

/-- A parsed catalog response body: `{ metas: [...] }`. -/
structure Catalog where
  metas : List ChannelStub
deriving DecidableEq, Repr

/-- Observable trace of one `getChannelM3u` run: the returned value,
how many fetch attempts were made, and the `delay` durations awaited
(in milliseconds, in order). -/
structure RetryTrace where
  result : Option M3uResponse
  attempts : Nat
  waits : List Nat
deriving DecidableEq, Repr

/-- The retry loop of `getChannelM3u`: `attempt` is the 1-indexed loop
counter, `remaining` the number of loop iterations left
(`retries - attempt + 1`).  Mirrors
`for (attempt = 1; attempt <= retries; attempt++) { try fetch/json; return
it; catch { log; if (attempt < retries) await delay(500 * attempt); } }
return null`. -/
def retryGo (fa : Nat → Option M3uResponse) (retries : Nat) :
    Nat → Nat → RetryTrace
  | attempt, 0 => { result := none, attempts := attempt - 1, waits := [] }
  | attempt, remaining + 1 =>
    match fa attempt with
    | some r => { result := some r, attempts := attempt, waits := [] }
    | none =>
      let rest := retryGo fa retries (attempt + 1) remaining
      if attempt < retries then
        { rest with waits := 500 * attempt :: rest.waits }
      else rest

/-- `getChannelM3u(channelId, apikey, retries)` with the fetch outcomes
abstracted into the attempt-indexed oracle `fa`. -/
def getChannelM3u (fa : Nat → Option M3uResponse) (retries : Nat) : RetryTrace :=
  retryGo fa retries 1 retries

/-- Executable model of JS `String.prototype.toLowerCase` (which the code
only ever applies to ASCII genre strings). -/
def lowerStr (s : String) : String := ⟨s.data.map Char.toLower⟩

/-- Executable model of JS `String.prototype.toUpperCase` (which the code
only ever applies to ASCII region codes). -/
def upperStr (s : String) : String := ⟨s.data.map Char.toUpper⟩

/-- `m3u.meta.genres?.[0] || ''`. -/
def primaryGenre (m : ChannelMeta) : String :=
  (m.genres.getD []).headD ""

/-- The guard `!m3u || !m3u.meta || !m3u.meta.streams || !m3u.meta.streams[0]`:
returns the meta together with its first stream when the guard passes. -/
def firstStream? (r : Option M3uResponse) : Option (ChannelMeta × StreamObj) :=
  match r with
  | none => none
  | some resp =>
    match resp.meta with
    | none => none
    | some m =>
      match m.streams with
      | none => none
      | some [] => none
      | some (s :: _) => some (m, s)

/-- The template string pushed for one surviving channel in `buildM3U`. -/
def renderEntry (m : ChannelMeta) (s : StreamObj) (genre : String) : String :=
  "#EXTINF:-1 tvg-id=\"" ++ m.tvgId ++ "\" tvg-logo=\"" ++ m.logo ++
    "\" group-title=\"" ++ genre ++ "\"," ++ m.name ++ "\n" ++ s.url

/-- The body of `buildM3U`'s `results.forEach` callback as a partial
entry-producer: `none` means the channel contributes no entry (absent or
incomplete metadata, or filtered out by genre). -/
def m3uEntryFor (filterSports : Bool) (r : Option M3uResponse) : Option String :=
  match firstStream? r with
  | none => none
  | some (m, s) =>
    let genre := primaryGenre m
    if filterSports && !(lowerStr genre == "sports") then none
    else some (renderEntry m s genre)

/-- One `forEach` step: skip the channel or push its rendered entry. -/
def pushStep (filterSports : Bool) (a : List String) (r : Option M3uResponse) :
    List String :=
  match m3uEntryFor filterSports r with
  | none => a
  | some e => a ++ [e]

/-- The `forEach`-with-`push` accumulation over the settled results. -/
def pushEntries (filterSports : Bool) (results : List (Option M3uResponse))
    (acc : List String) : List String :=
  results.foldl (pushStep filterSports) acc

/-- `Promise.all(channels.map(ch => getChannelM3u(ch.id, apikey)))`,
keeping the catalog order of the settled results. -/
def resultsOf (fa : String → Nat → Option M3uResponse) (catalog : Catalog) :
    List (Option M3uResponse) :=
  catalog.metas.map fun ch => (getChannelM3u (fa ch.id) 3).result

/-- `buildM3U(catalog, apikey, filterSports)`. -/
def buildM3U (catalog : Catalog) (fa : String → Nat → Option M3uResponse)
    (filterSports : Bool) : String :=
  String.intercalate "\n" (pushEntries filterSports (resultsOf fa catalog) ["#EXTM3U"])

/-! ### Association-list model of JS objects / `Map` (insertion-ordered) -/

/-- `map.get(k)` / `obj[k]`. -/
def mapGet {α : Type} (m : List (String × α)) (k : String) : Option α :=
  (m.find? fun p => p.1 == k).map Prod.snd

/-- `map.has(k)` / truthiness of `obj[k]`. -/
def mapHas {α : Type} (m : List (String × α)) (k : String) : Bool :=
  (mapGet m k).isSome

/-- Replace an association pair in place when its key matches. -/
def replaceEntry {α : Type} (k : String) (v : α) (p : String × α) : String × α :=
  if p.1 == k then (k, v) else p

/-- `map.set(k, v)` / `obj[k] = v`: replace in place when the key exists,
append otherwise. -/
def mapSet {α : Type} (m : List (String × α)) (k : String) (v : α) :
    List (String × α) :=
  if mapHas m k then m.map (replaceEntry k v)
  else m ++ [(k, v)]

/-- The metadata object of the C4 scenario channel `c1`. -/
def newsMeta : ChannelMeta :=
  { tvgId := "", logo := "", genres := some ["News"], name := "News1",
    streams := some [{ url := "http://x/1" }] }

/-- The C4 scenario oracle: `c1` resolves on the first attempt, `c2`'s
fetch fails on every attempt. -/
def scenarioFetch : String → Nat → Option M3uResponse :=
  fun id _ => if id = "c1" then some { meta := some newsMeta } else none

/-! ### Multi-region sports builder (`buildMultiRegionSportsM3U`) -/

/-- The record stored in the `allChannels` `Map` for one sports channel. -/
structure SportsChannel where
  tvgId : String
  logo : String
  genre : String
  name : String
  url : String
  region : String
deriving DecidableEq, Repr

/-- The record built for a surviving channel of `region`: the display name
is the original name suffixed with the upper-cased region tag. -/
def sportsChannelOf (region : String) (m : ChannelMeta) (s : StreamObj) : SportsChannel :=
  { tvgId := m.tvgId, logo := m.logo, genre := primaryGenre m,
    name := m.name ++ " (" ++ upperStr region ++ ")", url := s.url, region := region }

/-- A settled result that passes both the completeness guard and the
`genre.toLowerCase() !== 'sports'` filter. -/
def sportsSurvivor (r : Option M3uResponse) : Option (ChannelMeta × StreamObj) :=
  match firstStream? r with
  | none => none
  | some (m, s) =>
    if lowerStr (primaryGenre m) == "sports" then some (m, s) else none

/-- The body of the `results.forEach` callback in
`buildMultiRegionSportsM3U`: keep the first occurrence of a `tvgId` unless
the current region is `'usa'`, which always overwrites. -/
def processResult (region : String) (m : List (String × SportsChannel))
    (r : Option M3uResponse) : List (String × SportsChannel) :=
  match sportsSurvivor r with
  | none => m
  | some (meta, s) =>
    if !(mapHas m meta.tvgId) || (region == "usa") then
      mapSet m meta.tvgId (sportsChannelOf region meta s)
    else m

/-- One iteration of the `for (const region of regions)` loop: fetch the
region's catalog (skipping the region entirely on failure), settle every
channel fetch, and fold the dedup step over the results. -/
def processRegion (apikey : String) (cf : String → String → Option Catalog)
    (fa : String → String → Nat → Option M3uResponse)
    (m : List (String × SportsChannel)) (region : String) :
    List (String × SportsChannel) :=
  match cf apikey region with
  | none => m
  | some catalog => (resultsOf (fa apikey) catalog).foldl (processResult region) m

/-- The final `allChannels` map after the whole region loop. -/
def multiRegionChannels (apikey : String) (cf : String → String → Option Catalog)
    (fa : String → String → Nat → Option M3uResponse) (regions : List String) :
    List (String × SportsChannel) :=
  regions.foldl (processRegion apikey cf fa) []

/-- The template string pushed for one deduplicated channel. -/
def renderSports (c : SportsChannel) : String :=
  "#EXTINF:-1 tvg-id=\"" ++ c.tvgId ++ "\" tvg-logo=\"" ++ c.logo ++
    "\" group-title=\"" ++ c.genre ++ "\"," ++ c.name ++ "\n" ++ c.url

/-- `buildMultiRegionSportsM3U(apikey, regions)`. -/
def buildMultiRegionSportsM3U (apikey : String)
    (cf : String → String → Option Catalog)
    (fa : String → String → Nat → Option M3uResponse) (regions : List String) : String :=
  let allChannels := multiRegionChannels apikey cf fa regions
  String.intercalate "\n" ("#EXTM3U" :: allChannels.map fun p => renderSports p.2)

/-! ### C2: preferred-region ('usa') deduplication -/

/-- The surviving (validity- and genre-filtered) channels a region
contributes, in result order; empty when its catalog fetch fails. -/
def regionSurvivors (apikey : String) (cf : String → String → Option Catalog)
    (fa : String → String → Nat → Option M3uResponse) (region : String) :
    List (ChannelMeta × StreamObj) :=
  match cf apikey region with
  | none => []
  | some catalog => (resultsOf (fa apikey) catalog).filterMap sportsSurvivor

/-- The last surviving occurrence of channel id `id` among the preferred
region's results (the one whose entry ends up winning). -/
def usaFinal (apikey : String) (cf : String → String → Option Catalog)
    (fa : String → String → Nat → Option M3uResponse) (id : String) :
    Option (ChannelMeta × StreamObj) :=
  (regionSurvivors apikey cf fa "usa").reverse.find? fun p => p.1.tvgId == id

/-! ### Concrete demo oracles used by witnesses and counterexamples -/

/-- A sports channel metadata record used in demos. -/
def sportsMeta1 : ChannelMeta :=
  { tvgId := "espn", logo := "l1", genres := some ["Sports"], name := "ESPN",
    streams := some [{ url := "u1" }] }

/-- The UK-sourced variant of the demo channel: same `tvgId`. -/
def ukMeta : ChannelMeta :=
  { tvgId := "espn", logo := "l2", genres := some ["Sports"], name := "ESPN",
    streams := some [{ url := "uk-url" }] }

/-- The USA-sourced variant of the demo channel: same `tvgId`. -/
def usaMeta : ChannelMeta :=
  { tvgId := "espn", logo := "l1", genres := some ["sports"], name := "ESPN",
    streams := some [{ url := "usa-url" }] }

/-- Catalog oracle where only region `usa` resolves, to a one-stub catalog. -/
def demoCatalogFetch : String → String → Option Catalog :=
  fun _ region => if region = "usa" then some { metas := [{ id := "ch1" }] } else none

/-- Channel oracle resolving `ch1` to the demo sports channel. -/
def demoChannelFetch : String → String → Nat → Option M3uResponse :=
  fun _ id _ => if id = "ch1" then some { meta := some sportsMeta1 } else none

/-- Catalog oracle where `uk` and `usa` each resolve to a one-stub catalog. -/
def demo2CatalogFetch : String → String → Option Catalog :=
  fun _ region =>
    if region = "uk" then some { metas := [{ id := "uk1" }] }
    else if region = "usa" then some { metas := [{ id := "us1" }] }
    else none

/-- Channel oracle where the `uk` and `usa` stubs resolve to two variants
of the same `tvgId`. -/
def demo2ChannelFetch : String → String → Nat → Option M3uResponse :=
  fun _ id _ =>
    if id = "uk1" then some { meta := some ukMeta }
    else if id = "us1" then some { meta := some usaMeta }
    else none

/-! ### Server state: cache, handlers, scheduled refresh -/

/-- A cache entry: the rendered playlist text and its creation time. -/
structure CacheEntry where
  m3u : String
  timestamp : Int
deriving DecidableEq, Repr

/-- The in-memory `cache` object: key → entry, insertion-ordered. -/
abbrev Cache : Type := List (String × CacheEntry)

/-- `CACHE_DURATION = 24 * 60 * 60 * 1000` milliseconds. -/
def CACHE_DURATION : Int := 24 * 60 * 60 * 1000

/-- The fixed `validRegions` list. -/
def validRegions : List String :=
  ["usa", "ca", "mx", "uk", "au", "cl", "fr", "it", "za", "nz", "ee"]

/-- JS truthiness of an optional query-string parameter: present and
non-empty. -/
def truthy : Option String → Bool
  | none => false
  | some s => !(s == "")

/-- Executable model of a single-character JS `String.prototype.split`:
the accumulator holds the current field reversed. -/
def splitCharAux (sep : Char) : List Char → List Char → List (List Char)
  | [], acc => [acc.reverse]
  | c :: rest, acc =>
    if c == sep then acc.reverse :: splitCharAux sep rest []
    else splitCharAux sep rest (c :: acc)

/-- `s.split(sep)` for a one-character separator (the code only splits on
`'_'` and `','`). -/
def splitOnChar (sep : Char) (s : String) : List String :=
  (splitCharAux sep s.data []).map fun l => ⟨l⟩

/-- Executable model of JS `String.prototype.trim` (ASCII whitespace). -/
def trimStr (s : String) : String :=
  ⟨((s.data.dropWhile Char.isWhitespace).reverse.dropWhile Char.isWhitespace).reverse⟩

/-- The cache key written by `fetchAndCache`:
`apikey_region` or `apikey_region_sports`. -/
def fetchAndCacheKey (apikey region : String) (sportsOnly : Bool) : String :=
  if sportsOnly then apikey ++ "_" ++ region ++ "_sports"
  else apikey ++ "_" ++ region

/-- `fetchAndCache(apikey, region, sportsOnly)`: on catalog success builds
the playlist and overwrites the entry under the computed key; every
failure is caught and logged, leaving the cache untouched. -/
def fetchAndCache (cf : String → String → Option Catalog)
    (fa : String → String → Nat → Option M3uResponse)
    (cache : Cache) (apikey region : String) (now : Int) (sportsOnly : Bool) : Cache :=
  match cf apikey region with
  | none => cache
  | some catalogData =>
    mapSet cache (fetchAndCacheKey apikey region sportsOnly)
      { m3u := buildM3U catalogData (fa apikey) sportsOnly, timestamp := now }

/-- An HTTP response as observed by the client: status plus body. -/
inductive HttpResponse where
  | ok (body : String)
  | badRequest (body : String)
  | serverError (body : String)
deriving DecidableEq, Repr

/-- Outcome of one request: the response, the cache afterwards, and
whether any upstream fetch was initiated. -/
structure HandlerResult where
  response : HttpResponse
  cache : Cache
  calledUpstream : Bool
deriving DecidableEq, Repr

/-- Query parameters of `GET /playlist`. -/
structure PlaylistQuery where
  apikey : Option String
  region : Option String
  refresh : Option String
deriving DecidableEq, Repr

/-- Query parameters of `GET /sports-playlist`. -/
structure SportsQuery where
  apikey : Option String
  regions : Option String
  refresh : Option String
deriving DecidableEq, Repr

/-- The miss/expiry/forced-refresh path of `/playlist`: run
`fetchAndCache`, then serve the (possibly stale) entry, or 500 when none
exists. -/
def playlistRebuild (cf : String → String → Option Catalog)
    (fa : String → String → Nat → Option M3uResponse)
    (cache : Cache) (apikey region : String) (now : Int) : HandlerResult :=
  let cache2 := fetchAndCache cf fa cache apikey region now false
  match mapGet cache2 (apikey ++ "_" ++ region) with
  | some entry =>
    { response := .ok entry.m3u, cache := cache2, calledUpstream := true }
  | none =>
    { response := .serverError "Unable to generate playlist",
      cache := cache2, calledUpstream := true }

/-- The `GET /playlist` handler. -/
def playlistHandler (cf : String → String → Option Catalog)
    (fa : String → String → Nat → Option M3uResponse)
    (cache : Cache) (q : PlaylistQuery) (now : Int) : HandlerResult :=
  let apikey := q.apikey.getD ""
  let region := q.region.getD ""
  if (apikey == "") || (region == "") || !(validRegions.contains region) then
    { response := .badRequest ("Error: Missing or invalid parameters. Valid regions: "
        ++ String.intercalate ", " validRegions),
      cache := cache, calledUpstream := false }
  else
    match mapGet cache (apikey ++ "_" ++ region) with
    | some entry =>
      if !(truthy q.refresh) && decide (now - entry.timestamp < CACHE_DURATION) then
        { response := .ok entry.m3u, cache := cache, calledUpstream := false }
      else playlistRebuild cf fa cache apikey region now
    | none => playlistRebuild cf fa cache apikey region now

/-- `regions.split(',').map(r => r.trim()).filter(r => validRegions.includes(r))`. -/
def parseRegionList (regions : String) : List String :=
  ((splitOnChar ',' regions).map trimStr).filter fun r => validRegions.contains r

/-- The `/sports-playlist` cache key: `apikey_sports_r1_r2_…`. -/
def sportsCacheKey (apikey : String) (regionList : List String) : String :=
  apikey ++ "_sports_" ++ String.intercalate "_" regionList

/-- The build-and-cache tail of `/sports-playlist`. -/
def sportsBuild (cf : String → String → Option Catalog)
    (fa : String → String → Nat → Option M3uResponse)
    (cache : Cache) (apikey : String) (regionList : List String) (now : Int) :
    HandlerResult :=
  let sportsM3u := buildMultiRegionSportsM3U apikey cf fa regionList
  { response := .ok sportsM3u,
    cache := mapSet cache (sportsCacheKey apikey regionList)
      { m3u := sportsM3u, timestamp := now },
    calledUpstream := true }

/-- The cache-check-then-build tail of `/sports-playlist`, after the
region list has been determined. -/
def sportsServe (cf : String → String → Option Catalog)
    (fa : String → String → Nat → Option M3uResponse)
    (cache : Cache) (apikey : String) (regionList : List String)
    (refresh : Option String) (now : Int) : HandlerResult :=
  match mapGet cache (sportsCacheKey apikey regionList) with
  | some entry =>
    if !(truthy refresh) && decide (now - entry.timestamp < CACHE_DURATION) then
      { response := .ok entry.m3u, cache := cache, calledUpstream := false }
    else sportsBuild cf fa cache apikey regionList now
  | none => sportsBuild cf fa cache apikey regionList now

/-- The `GET /sports-playlist` handler. -/
def sportsHandler (cf : String → String → Option Catalog)
    (fa : String → String → Nat → Option M3uResponse)
    (cache : Cache) (q : SportsQuery) (now : Int) : HandlerResult :=
  let apikey := q.apikey.getD ""
  if apikey == "" then
    { response := .badRequest "Error: Missing apikey parameter",
      cache := cache, calledUpstream := false }
  else if truthy q.regions then
    let regionList := parseRegionList (q.regions.getD "")
    if regionList.isEmpty then
      { response := .badRequest ("Error: No valid regions provided. Valid regions: "
          ++ String.intercalate ", " validRegions),
        cache := cache, calledUpstream := false }
    else sportsServe cf fa cache apikey regionList q.refresh now
  else sportsServe cf fa cache apikey ["usa"] q.refresh now

/-- `const [apikey, region] = key.split("_")` in the refresh pass:
destructuring keeps only the first two fragments. -/
def refreshKeyParts (key : String) : String × String :=
  let parts := splitOnChar '_' key
  (parts.getD 0 "", parts.getD 1 "")

/-- One scheduled refresh pass: for every key in the cache snapshot, split
the key on `'_'` and run a plain-mode `fetchAndCache` with the first two
fragments. -/
def dailyRefreshPass (cf : String → String → Option Catalog)
    (fa : String → String → Nat → Option M3uResponse)
    (cache : Cache) (now : Int) : Cache :=
  (cache.map Prod.fst).foldl
    (fun c key =>
      fetchAndCache cf fa c (refreshKeyParts key).1 (refreshKeyParts key).2 now false)
    cache

/-- Catalog oracle for which every upstream catalog fetch fails. -/
def noCatalog : String → String → Option Catalog := fun _ _ => none

/-- Channel oracle for which every channel fetch attempt fails. -/
def noChannel : String → String → Nat → Option M3uResponse := fun _ _ _ => none

/-- Catalog oracle for which every upstream catalog fetch succeeds with an
empty catalog. -/
def okCatalog : String → String → Option Catalog := fun _ _ => some { metas := [] }

/-- Catalog oracle that succeeds (with an empty catalog) for every valid
region and fails for anything else — a healthy upstream. -/
def healthyCatalogFetch : String → String → Option Catalog :=
  fun _ region =>
    if validRegions.contains region then some { metas := [] } else none

/-- A cache holding one sports entry, as created by
`GET /sports-playlist?apikey=k&regions=usa`. -/
def staleSportsCache : Cache := [("k_sports_usa", { m3u := "OLD", timestamp := 0 })]

/-! ## Theorems -/

theorem mapGet_nil {α : Type} (k : String) : mapGet ([] : List (String × α)) k = none := rfl

theorem mapGet_cons {α : Type} (p : String × α) (m : List (String × α)) (k : String) :
    mapGet (p :: m) k = if p.1 == k then some p.2 else mapGet m k := by
  simp only [mapGet, List.find?_cons]
  by_cases h : p.1 == k <;> simp [h]

theorem mapHas_cons {α : Type} (p : String × α) (m : List (String × α)) (k : String) :
    mapHas (p :: m) k = ((p.1 == k) || mapHas m k) := by
  by_cases h : p.1 = k <;> simp [mapHas, mapGet_cons, h]

theorem replaceEntry_eq {α : Type} (k : String) (v : α) (p : String × α)
    (h : p.1 = k) : replaceEntry k v p = (k, v) := by
  simp [replaceEntry, h]

theorem replaceEntry_ne {α : Type} (k : String) (v : α) (p : String × α)
    (h : ¬ p.1 = k) : replaceEntry k v p = p := by
  simp [replaceEntry, h]

theorem mapGet_replace {α : Type} (m : List (String × α)) (k : String) (v : α) :
    mapGet (m.map (replaceEntry k v)) k
      = if mapHas m k then some v else none := by
  induction m with
  | nil => simp [mapHas, mapGet]
  | cons p rest ih =>
    by_cases h : p.1 = k
    · rw [List.map_cons, replaceEntry_eq k v p h, mapGet_cons]
      simp [mapHas_cons, h]
    · rw [List.map_cons, replaceEntry_ne k v p h, mapGet_cons, ih, mapHas_cons]
      simp [h]

theorem mapGet_replace_ne {α : Type} (m : List (String × α)) (k k' : String) (v : α)
    (h : k' ≠ k) :
    mapGet (m.map (replaceEntry k v)) k' = mapGet m k' := by
  induction m with
  | nil => rfl
  | cons p rest ih =>
    by_cases hp : p.1 = k
    · rw [List.map_cons, replaceEntry_eq k v p hp, mapGet_cons, mapGet_cons, ih]
      simp [hp, Ne.symm h]
    · rw [List.map_cons, replaceEntry_ne k v p hp, mapGet_cons, mapGet_cons, ih]

theorem mapGet_none_of_not_has {α : Type} (m : List (String × α)) (k : String)
    (hm : ¬ mapHas m k = true) : mapGet m k = none := by
  cases hg : mapGet m k with
  | none => rfl
  | some v => simp [mapHas, hg] at hm

theorem mapGet_mapSet_self {α : Type} (m : List (String × α)) (k : String) (v : α) :
    mapGet (mapSet m k v) k = some v := by
  unfold mapSet
  by_cases hm : mapHas m k
  · simp [hm, mapGet_replace]
  · have hfind : m.find? (fun p => p.1 == k) = none := by
      have := mapGet_none_of_not_has m k hm
      simp only [mapGet] at this
      cases hf : m.find? (fun p => p.1 == k) <;> simp [hf] at this ⊢
    simp [hm, mapGet, List.find?_append, hfind]

theorem mapGet_mapSet_ne {α : Type} (m : List (String × α)) (k k' : String) (v : α)
    (h : k' ≠ k) : mapGet (mapSet m k v) k' = mapGet m k' := by
  unfold mapSet
  by_cases hm : mapHas m k
  · simp [hm, mapGet_replace_ne m k k' v h]
  · have : (k == k') = false := by simp [Ne.symm h]
    simp only [hm, if_neg, Bool.not_eq_true, mapGet, List.find?_append]
    cases hf : m.find? (fun p => p.1 == k') <;> simp [hf, this]

theorem mapHas_of_get {α : Type} (m : List (String × α)) (k : String) (v : α)
    (h : mapGet m k = some v) : mapHas m k = true := by
  simp [mapHas, h]

/-! ### Retry-loop lemmas -/

theorem retryGo_attempts_le (fa : Nat → Option M3uResponse) (retries : Nat) :
    ∀ remaining attempt, (retryGo fa retries attempt remaining).attempts ≤ attempt - 1 + remaining := by
  intro remaining
  induction remaining with
  | zero => intro attempt; simp [retryGo]
  | succ r ih =>
    intro attempt
    simp only [retryGo]
    cases fa attempt with
    | some v => simp; omega
    | none =>
      have h := ih (attempt + 1)
      by_cases hc : attempt < retries <;> simp [hc] <;> omega

theorem retryGo_all_fail (fa : Nat → Option M3uResponse) (retries : Nat) :
    ∀ remaining attempt, attempt + remaining = retries + 1 → 1 ≤ attempt →
    (∀ n, attempt ≤ n → n ≤ retries → fa n = none) →
    retryGo fa retries attempt remaining =
      { result := none, attempts := retries,
        waits := (List.range' attempt (retries - attempt)).map fun n => 500 * n } := by
  intro remaining
  induction remaining with
  | zero =>
    intro attempt hsum _ _
    have h1 : attempt - 1 = retries := by omega
    have h2 : retries - attempt = 0 := by omega
    simp [retryGo, h1, h2]
  | succ r ih =>
    intro attempt hsum h1 hfail
    have hle : attempt ≤ retries := by omega
    simp only [retryGo, hfail attempt le_rfl hle]
    have hrest := ih (attempt + 1) (by omega) (by omega)
      (fun n hn hn' => hfail n (by omega) hn')
    by_cases hc : attempt < retries
    · have hrange : retries - attempt = (retries - (attempt + 1)) + 1 := by omega
      simp only [hc, if_pos, hrest, hrange, List.range'_succ, List.map_cons]
    · have hz : retries - attempt = 0 := by omega
      have hz' : retries - (attempt + 1) = 0 := by omega
      simp [hc, hrest, hz, hz']

theorem retryGo_success (fa : Nat → Option M3uResponse) (retries : Nat)
    (k : Nat) (r : M3uResponse) :
    ∀ remaining attempt, attempt + remaining = retries + 1 → attempt ≤ k → k ≤ retries →
    (∀ n, attempt ≤ n → n < k → fa n = none) → fa k = some r →
    retryGo fa retries attempt remaining =
      { result := some r, attempts := k,
        waits := (List.range' attempt (k - attempt)).map fun n => 500 * n } := by
  intro remaining
  induction remaining with
  | zero => intro attempt hsum hak hkr _ _; omega
  | succ rem ih =>
    intro attempt hsum hak hkr hfail hk
    by_cases hek : attempt = k
    · subst hek
      simp [retryGo, hk]
    · have hlt : attempt < k := by omega
      simp only [retryGo, hfail attempt le_rfl hlt]
      have hrest := ih (attempt + 1) (by omega) (by omega) hkr
        (fun n hn hn' => hfail n (by omega) hn') hk
      have hc : attempt < retries := by omega
      have hrange : k - attempt = (k - (attempt + 1)) + 1 := by omega
      simp only [hc, if_pos, hrest, hrange, List.range'_succ, List.map_cons]

/--
C3: `getChannelM3u` with `retries = 3` makes at most 3 fetch attempts;
when the first success is at attempt `k` it awaited exactly the delays
`500*1, …, 500*(k-1)` (one after each failed non-final attempt, none after
the final attempt); and when all 3 attempts fail it returns an absent
result (`none`, not an error), having made exactly 3 attempts and awaited
only `500*1` and `500*2`.
-/
theorem getChannelM3u_retry_contract :
    (∀ fa : Nat → Option M3uResponse, (getChannelM3u fa 3).attempts ≤ 3) ∧
    (∀ (fa : Nat → Option M3uResponse) (r : M3uResponse) (k : Nat),
      1 ≤ k → k ≤ 3 → (∀ n, 1 ≤ n → n < k → fa n = none) → fa k = some r →
      getChannelM3u fa 3 =
        { result := some r, attempts := k,
          waits := (List.range' 1 (k - 1)).map fun n => 500 * n }) ∧
    (∀ fa : Nat → Option M3uResponse, (∀ n, 1 ≤ n → n ≤ 3 → fa n = none) →
      getChannelM3u fa 3 =
        { result := none, attempts := 3, waits := [500 * 1, 500 * 2] }) := by
  refine ⟨?_, ?_, ?_⟩
  · intro fa
    have := retryGo_attempts_le fa 3 3 1
    simpa [getChannelM3u] using this
  · intro fa r k h1 h3 hfail hk
    exact retryGo_success fa 3 k r 3 1 rfl h1 h3 hfail hk
  · intro fa hfail
    have := retryGo_all_fail fa 3 3 1 rfl le_rfl hfail
    simpa [getChannelM3u, List.range'] using this

/-- Witness for C3: with an oracle that fails every attempt, the run makes
3 attempts, waits 500 ms then 1000 ms, and returns `none`. -/
theorem getChannelM3u_retry_contract_witness :
    getChannelM3u (fun _ => none) 3 =
      { result := none, attempts := 3, waits := [500 * 1, 500 * 2] } :=
  getChannelM3u_retry_contract.2.2 (fun _ => none) (fun _ _ _ => rfl)

/-! ### Playlist-builder lemmas -/

theorem pushEntries_eq_filterMap (filterSports : Bool)
    (results : List (Option M3uResponse)) (acc : List String) :
    pushEntries filterSports results acc = acc ++ results.filterMap (m3uEntryFor filterSports) := by
  induction results generalizing acc with
  | nil => simp [pushEntries]
  | cons x xs ih =>
    have step : pushEntries filterSports (x :: xs) acc
        = pushEntries filterSports xs (pushStep filterSports acc x) := rfl
    cases hf : m3uEntryFor filterSports x with
    | none => rw [step, ih]; simp [pushStep, hf, List.filterMap_cons]
    | some e => rw [step, ih]; simp [pushStep, hf, List.filterMap_cons]

/--
C4: `buildM3U` returns the `#EXTM3U` header followed by exactly one
rendered metadata-line/stream-URL pair per channel whose metadata settled
successfully and completely, in catalog order; a channel whose fetch
settled to `null`, whose response lacks `meta`, or whose `meta` lacks a
stream list or has an empty one contributes no entry.  In the scenario
with catalog `[c1, c2]` where `c1` resolves and `c2` fails 3 times, the
output is the header plus exactly the one line-pair for `c1`.
-/
theorem buildM3U_entries_characterisation :
    (∀ (catalog : Catalog) (fa : String → Nat → Option M3uResponse) (fs : Bool),
      buildM3U catalog fa fs =
        String.intercalate "\n"
          ("#EXTM3U" :: (resultsOf fa catalog).filterMap (m3uEntryFor fs))) ∧
    (∀ fs : Bool, m3uEntryFor fs none = none) ∧
    (∀ (fs : Bool) (resp : M3uResponse), resp.meta = none →
      m3uEntryFor fs (some resp) = none) ∧
    (∀ (fs : Bool) (resp : M3uResponse) (m : ChannelMeta), resp.meta = some m →
      m.streams = none ∨ m.streams = some [] →
      m3uEntryFor fs (some resp) = none) ∧
    (buildM3U { metas := [{ id := "c1" }, { id := "c2" }] } scenarioFetch false =
      "#EXTM3U\n#EXTINF:-1 tvg-id=\"\" tvg-logo=\"\" group-title=\"News\",News1\nhttp://x/1") := by
  refine ⟨?_, ?_, ?_, ?_, ?_⟩
  · intro catalog fa fs
    rw [buildM3U, pushEntries_eq_filterMap]
    rfl
  · intro fs; rfl
  · intro fs resp h
    simp [m3uEntryFor, firstStream?, h]
  · intro fs resp m hm hs
    rcases hs with hs | hs <;> simp [m3uEntryFor, firstStream?, hm, hs]
  · rfl

/-- Witness for C4: a response with no `meta` field contributes no entry. -/
theorem buildM3U_entries_characterisation_witness :
    m3uEntryFor false (some { meta := none }) = none :=
  buildM3U_entries_characterisation.2.2.1 false { meta := none } rfl

/-! ### C5: active genre filter admits only sports entries -/

theorem mem_mapSet {α : Type} (m : List (String × α)) (k : String) (v : α)
    (p : String × α) (hp : p ∈ mapSet m k v) : p ∈ m ∨ p = (k, v) := by
  unfold mapSet at hp
  by_cases hm : mapHas m k
  · simp only [hm, if_pos] at hp
    rcases List.mem_map.mp hp with ⟨q, hq, hrep⟩
    by_cases hqk : q.1 = k
    · right; rw [← hrep, replaceEntry_eq k v q hqk]
    · left; rwa [← hrep, replaceEntry_ne k v q hqk]
  · simp only [hm, if_neg, Bool.not_eq_true] at hp
    rcases List.mem_append.mp hp with h | h
    · left; exact h
    · right; simpa using h

theorem processResult_preserves (region : String) (P : String × SportsChannel → Prop)
    (m : List (String × SportsChannel)) (r : Option M3uResponse)
    (hm : ∀ p ∈ m, P p)
    (hnew : ∀ meta s, sportsSurvivor r = some (meta, s) →
      P (meta.tvgId, sportsChannelOf region meta s)) :
    ∀ p ∈ processResult region m r, P p := by
  intro p hp
  unfold processResult at hp
  split at hp
  · exact hm p hp
  · rename_i meta s heq
    split at hp
    · rcases mem_mapSet _ _ _ p hp with h | h
      · exact hm p h
      · rw [h]; exact hnew meta s heq
    · exact hm p hp

theorem sportsSurvivor_genre (r : Option M3uResponse) (meta : ChannelMeta)
    (s : StreamObj) (h : sportsSurvivor r = some (meta, s)) :
    lowerStr (primaryGenre meta) = "sports" := by
  unfold sportsSurvivor at h
  cases hf : firstStream? r with
  | none => rw [hf] at h; cases h
  | some ms =>
    rw [hf] at h
    rcases ms with ⟨m', s'⟩
    by_cases hg : lowerStr (primaryGenre m') == "sports"
    · simp only [hg, if_pos] at h
      cases h
      simpa using hg
    · simp [hg] at h

theorem multiRegionChannels_sports (apikey : String)
    (cf : String → String → Option Catalog)
    (fa : String → String → Nat → Option M3uResponse) (regions : List String) :
    ∀ p ∈ multiRegionChannels apikey cf fa regions, lowerStr p.2.genre = "sports" := by
  unfold multiRegionChannels
  suffices h : ∀ (rs : List String) (m : List (String × SportsChannel)),
      (∀ p ∈ m, lowerStr p.2.genre = "sports") →
      ∀ p ∈ rs.foldl (processRegion apikey cf fa) m, lowerStr p.2.genre = "sports" by
    exact h regions [] (by intro p hp; cases hp)
  intro rs
  induction rs with
  | nil => intro m hm p hp; exact hm p hp
  | cons region rest ih =>
    intro m hm
    rw [List.foldl_cons]
    refine ih (processRegion apikey cf fa m region) ?_
    unfold processRegion
    cases hc : cf apikey region with
    | none => exact hm
    | some catalog =>
      suffices h : ∀ (results : List (Option M3uResponse)) (m' : List (String × SportsChannel)),
          (∀ p ∈ m', lowerStr p.2.genre = "sports") →
          ∀ p ∈ results.foldl (processResult region) m', lowerStr p.2.genre = "sports" by
        exact h (resultsOf (fa apikey) catalog) m hm
      intro results
      induction results with
      | nil => intro m' hm' p hp; exact hm' p hp
      | cons r rrest ihr =>
        intro m' hm'
        rw [List.foldl_cons]
        refine ihr (processResult region m' r) ?_
        refine processResult_preserves region _ m' r hm' ?_
        intro meta s hs
        have := sportsSurvivor_genre r meta s hs
        simpa [sportsChannelOf] using this

/--
C5: when the sports genre filter is active, every entry of the built
playlist (beyond the header) is rendered from a channel whose primary
genre equals \"sports\" case-insensitively — both in the single-region
builder (`buildM3U` with `filterSports = true`) and in the multi-region
deduplication map, whose every stored record has a sports genre.
-/
theorem sports_filter_soundness :
    (∀ (catalog : Catalog) (fa : String → Nat → Option M3uResponse) (e : String),
      e ∈ pushEntries true (resultsOf fa catalog) ["#EXTM3U"] →
      e = "#EXTM3U" ∨ ∃ m s, lowerStr (primaryGenre m) = "sports" ∧
        e = renderEntry m s (primaryGenre m)) ∧
    (∀ (apikey : String) (cf : String → String → Option Catalog)
      (fa : String → String → Nat → Option M3uResponse) (regions : List String)
      (p : String × SportsChannel),
      p ∈ multiRegionChannels apikey cf fa regions → lowerStr p.2.genre = "sports") := by
  constructor
  · intro catalog fa e he
    rw [pushEntries_eq_filterMap] at he
    rcases List.mem_append.mp he with h | h
    · left; simpa using h
    · right
      rcases List.mem_filterMap.mp h with ⟨r, _, hr⟩
      unfold m3uEntryFor at hr
      cases hf : firstStream? r with
      | none => rw [hf] at hr; cases hr
      | some ms =>
        rw [hf] at hr
        rcases ms with ⟨m, s⟩
        by_cases hg : (lowerStr (primaryGenre m) == "sports") = true
        · refine ⟨m, s, by simpa using hg, ?_⟩
          simp [hg] at hr
          exact hr.symm
        · rw [Bool.not_eq_true] at hg
          simp [hg] at hr
  · intro apikey cf fa regions p hp
    exact multiRegionChannels_sports apikey cf fa regions p hp

theorem processResult_none_eq (region : String) (m : List (String × SportsChannel))
    (r : Option M3uResponse) (hs : sportsSurvivor r = none) :
    processResult region m r = m := by
  unfold processResult; rw [hs]

theorem processResult_some_eq (region : String) (m : List (String × SportsChannel))
    (r : Option M3uResponse) (meta : ChannelMeta) (s : StreamObj)
    (hs : sportsSurvivor r = some (meta, s)) :
    processResult region m r =
      if !(mapHas m meta.tvgId) || (region == "usa") then
        mapSet m meta.tvgId (sportsChannelOf region meta s)
      else m := by
  unfold processResult; rw [hs]

theorem foldl_processResult_usa (id : String) (results : List (Option M3uResponse)) :
    ∀ m : List (String × SportsChannel),
    mapGet (results.foldl (processResult "usa") m) id =
      match (results.filterMap sportsSurvivor).reverse.find? (fun q => q.1.tvgId == id) with
      | some p => some (sportsChannelOf "usa" p.1 p.2)
      | none => mapGet m id := by
  induction results using List.reverseRecOn with
  | nil => intro m; rfl
  | append_singleton rs r ih =>
    intro m
    rw [List.foldl_append, List.foldl_cons, List.foldl_nil,
      List.filterMap_append, List.reverse_append]
    cases hs : sportsSurvivor r with
    | none =>
      have hone : List.filterMap sportsSurvivor [r] = [] := by
        simp [List.filterMap_cons, hs]
      rw [hone, List.reverse_nil, List.nil_append,
        processResult_none_eq "usa" _ r hs]
      exact ih m
    | some ms =>
      rcases ms with ⟨meta, s⟩
      have hone : List.filterMap sportsSurvivor [r] = [(meta, s)] := by
        simp [List.filterMap_cons, hs]
      rw [hone, processResult_some_eq "usa" _ r meta s hs]
      have hcond : (!(mapHas (rs.foldl (processResult "usa") m) meta.tvgId)
          || (("usa" : String) == "usa")) = true := by
        simp
      rw [if_pos hcond]
      by_cases hid : meta.tvgId = id
      · rw [List.reverse_singleton, List.singleton_append,
          List.find?_cons_of_pos _ (by simpa using hid)]
        rw [← hid, mapGet_mapSet_self]
      · rw [List.reverse_singleton, List.singleton_append,
          List.find?_cons_of_neg _ (by simpa using hid)]
        rw [mapGet_mapSet_ne _ _ _ _ (fun h => hid h.symm)]
        exact ih m

theorem processResult_other (region : String) (hr : region ≠ "usa") (id : String)
    (m : List (String × SportsChannel)) (r : Option M3uResponse)
    (hm : mapHas m id = true) :
    mapGet (processResult region m r) id = mapGet m id := by
  unfold processResult
  split
  · rfl
  · rename_i meta s heq
    split
    · rename_i hc
      have hbeq : (region == "usa") = false := by
        simpa using hr
      rw [hbeq, Bool.or_false, Bool.not_eq_true'] at hc
      have hne : meta.tvgId ≠ id := by
        intro h
        rw [h, hm] at hc
        cases hc
      rw [mapGet_mapSet_ne _ _ _ _ (fun h => hne h.symm)]
    · rfl

theorem foldl_processResult_other (region : String) (hr : region ≠ "usa") (id : String)
    (results : List (Option M3uResponse)) :
    ∀ m : List (String × SportsChannel), mapHas m id = true →
    mapGet (results.foldl (processResult region) m) id = mapGet m id := by
  induction results with
  | nil => intro m _; rfl
  | cons r rest ih =>
    intro m hm
    rw [List.foldl_cons]
    have hstep := processResult_other region hr id m r hm
    have hhas : mapHas (processResult region m r) id = true := by
      simp only [mapHas, hstep]; exact hm
    rw [ih (processResult region m r) hhas, hstep]

theorem processRegion_other (apikey : String) (cf : String → String → Option Catalog)
    (fa : String → String → Nat → Option M3uResponse) (region : String)
    (hr : region ≠ "usa") (id : String) (m : List (String × SportsChannel))
    (hm : mapHas m id = true) :
    mapGet (processRegion apikey cf fa m region) id = mapGet m id := by
  unfold processRegion
  split
  · rfl
  · rename_i catalog heq
    exact foldl_processResult_other region hr id _ m hm

theorem foldl_processRegion_other (apikey : String) (cf : String → String → Option Catalog)
    (fa : String → String → Nat → Option M3uResponse) (rest : List String)
    (hrest : ∀ x ∈ rest, x ≠ "usa") (id : String) :
    ∀ m : List (String × SportsChannel), mapHas m id = true →
    mapGet (rest.foldl (processRegion apikey cf fa) m) id = mapGet m id := by
  induction rest with
  | nil => intro m _; rfl
  | cons region rest' ih =>
    intro m hm
    rw [List.foldl_cons]
    have hne : region ≠ "usa" := hrest region (List.mem_cons_self region rest')
    have hstep := processRegion_other apikey cf fa region hne id m hm
    have hhas : mapHas (processRegion apikey cf fa m region) id = true := by
      simp only [mapHas, hstep]
      exact hm
    rw [ih (fun x hx => hrest x (List.mem_cons_of_mem region hx))
      (processRegion apikey cf fa m region) hhas, hstep]

theorem foldl_processRegion_usa_wins (apikey : String)
    (cf : String → String → Option Catalog)
    (fa : String → String → Nat → Option M3uResponse) (id : String)
    (p : ChannelMeta × StreamObj) (hfin : usaFinal apikey cf fa id = some p) :
    ∀ (regions : List String), "usa" ∈ regions →
    ∀ m : List (String × SportsChannel),
    mapGet (regions.foldl (processRegion apikey cf fa) m) id =
      some (sportsChannelOf "usa" p.1 p.2) := by
  intro regions
  induction regions with
  | nil => intro h; cases h
  | cons region rest ih =>
    intro hmem m
    rw [List.foldl_cons]
    by_cases hrest : "usa" ∈ rest
    · exact ih hrest (processRegion apikey cf fa m region)
    · have hregion : region = "usa" := by
        rcases List.mem_cons.mp hmem with h | h
        · exact h.symm
        · exact absurd h hrest
      subst hregion
      have hcf : ∃ catalog, cf apikey "usa" = some catalog := by
        unfold usaFinal regionSurvivors at hfin
        cases hc : cf apikey "usa" with
        | none => rw [hc] at hfin; cases hfin
        | some catalog => exact ⟨catalog, rfl⟩
      rcases hcf with ⟨catalog, hc⟩
      have hm1 : mapGet (processRegion apikey cf fa m "usa") id =
          some (sportsChannelOf "usa" p.1 p.2) := by
        unfold processRegion
        rw [hc]
        rw [foldl_processResult_usa id (resultsOf (fa apikey) catalog) m]
        unfold usaFinal regionSurvivors at hfin
        rw [hc] at hfin
        rw [hfin]
      have hhas : mapHas (processRegion apikey cf fa m "usa") id = true := by
        simp only [mapHas, hm1]
        rfl
      rw [foldl_processRegion_other apikey cf fa rest
        (fun x hx h => hrest (h ▸ hx)) id (processRegion apikey cf fa m "usa") hhas, hm1]

/--
C2: in the multi-region sports build, a later non-preferred region never
overwrites an existing entry for a channel id (first occurrence wins); the
preferred region `'usa'` always overwrites the entry for a surviving
channel's id; consequently, for every regions list containing `'usa'` and
every channel id that survives in `'usa'`'s results, the final map entry
for that id is the one built from `'usa'`'s (last) surviving occurrence —
whose display name is the original name suffixed with " (USA)" — no matter
where `'usa'` sits in the iteration order.
-/
theorem multiRegion_usa_preferred :
    (∀ (region : String) (m : List (String × SportsChannel)) (r : Option M3uResponse)
      (id : String), region ≠ "usa" → mapHas m id = true →
      mapGet (processResult region m r) id = mapGet m id) ∧
    (∀ (m : List (String × SportsChannel)) (r : Option M3uResponse)
      (meta : ChannelMeta) (s : StreamObj), sportsSurvivor r = some (meta, s) →
      mapGet (processResult "usa" m r) meta.tvgId =
        some (sportsChannelOf "usa" meta s)) ∧
    (∀ (apikey : String) (cf : String → String → Option Catalog)
      (fa : String → String → Nat → Option M3uResponse) (regions : List String)
      (id : String) (p : ChannelMeta × StreamObj),
      "usa" ∈ regions → usaFinal apikey cf fa id = some p →
      mapGet (multiRegionChannels apikey cf fa regions) id =
        some (sportsChannelOf "usa" p.1 p.2) ∧
      (sportsChannelOf "usa" p.1 p.2).name = p.1.name ++ " (USA)") := by
  refine ⟨?_, ?_, ?_⟩
  · intro region m r id hr hm
    exact processResult_other region hr id m r hm
  · intro m r meta s hs
    rw [processResult_some_eq "usa" m r meta s hs]
    have hcond : (!(mapHas m meta.tvgId) || (("usa" : String) == "usa")) = true := by
      simp
    rw [if_pos hcond, mapGet_mapSet_self]
  · intro apikey cf fa regions id p hmem hfin
    refine ⟨foldl_processRegion_usa_wins apikey cf fa id p hfin regions hmem [], ?_⟩
    have hup : upperStr "usa" = "USA" := by decide
    simp [sportsChannelOf, hup, String.append_assoc]

/-- Witness for C2: with `uk` iterated before `usa` and both contributing
the same `tvgId`, the final entry is the `usa` one. -/
theorem multiRegion_usa_preferred_witness :
    mapGet (multiRegionChannels "k" demo2CatalogFetch demo2ChannelFetch ["uk", "usa"])
        "espn" = some (sportsChannelOf "usa" usaMeta { url := "usa-url" }) :=
  (multiRegion_usa_preferred.2.2 "k" demo2CatalogFetch demo2ChannelFetch
    ["uk", "usa"] "espn" (usaMeta, { url := "usa-url" }) (by decide) (by decide)).1

/-- Witness for C5: the one entry of a concrete sports-filtered build has a
sports genre. -/
theorem sports_filter_soundness_witness :
    lowerStr (sportsChannelOf "usa" sportsMeta1 { url := "u1" }).genre = "sports" :=
  sports_filter_soundness.2 "k" demoCatalogFetch demoChannelFetch ["usa"]
    ("espn", sportsChannelOf "usa" sportsMeta1 { url := "u1" }) (by decide)

/-- Membership restated through `List.contains`. -/
theorem contains_of_mem {l : List String} {a : String} (h : a ∈ l) :
    l.contains a = true :=
  List.elem_iff.mpr h

theorem mem_of_contains {l : List String} {a : String} (h : l.contains a = true) :
    a ∈ l :=
  List.elem_iff.mp h

/--
C6: for a request with valid parameters and no `refresh` parameter, when
the cache holds an entry for the key whose age is below the 24-hour
window, `/playlist` answers 200 with exactly that entry's text, leaves the
cache unchanged, and initiates no upstream fetch — hence repeated such
requests get byte-identical bodies.
-/
theorem playlist_fresh_cache_hit (cf : String → String → Option Catalog)
    (fa : String → String → Nat → Option M3uResponse) (cache : Cache)
    (k r : String) (entry : CacheEntry) (now : Int)
    (hk : k ≠ "") (hr : r ∈ validRegions)
    (hget : mapGet cache (k ++ "_" ++ r) = some entry)
    (hfresh : now - entry.timestamp < CACHE_DURATION) :
    playlistHandler cf fa cache { apikey := some k, region := some r, refresh := none } now
      = { response := .ok entry.m3u, cache := cache, calledUpstream := false } := by
  have hre : r ≠ "" := by
    rintro rfl
    revert hr
    decide
  have hcon := contains_of_mem hr
  simp only [playlistHandler, Option.getD_some, hcon]
  rw [if_neg (by simp [hk, hre])]
  rw [hget]
  simp [truthy, hfresh]

/-- Witness for C6. -/
theorem playlist_fresh_cache_hit_witness :
    playlistHandler noCatalog noChannel [("k_usa", { m3u := "PLAYLIST", timestamp := 0 })]
        { apikey := some "k", region := some "usa", refresh := none } 5
      = { response := .ok "PLAYLIST",
          cache := [("k_usa", { m3u := "PLAYLIST", timestamp := 0 })],
          calledUpstream := false } :=
  playlist_fresh_cache_hit noCatalog noChannel
    [("k_usa", { m3u := "PLAYLIST", timestamp := 0 })] "k" "usa"
    { m3u := "PLAYLIST", timestamp := 0 } 5
    (by decide) (by decide) (by decide) (by decide)

/--
C7: whenever the apikey is absent, or the region parameter is absent or
not a member of the fixed valid-region list, `/playlist` answers 400 with
a message enumerating the valid regions, leaves the cache unchanged, and
initiates no upstream fetch.
-/
theorem playlist_invalid_params (cf : String → String → Option Catalog)
    (fa : String → String → Nat → Option M3uResponse) (cache : Cache)
    (q : PlaylistQuery) (now : Int)
    (h : q.apikey = none ∨ q.region = none ∨ (q.region.getD "") ∉ validRegions) :
    playlistHandler cf fa cache q now =
      { response := .badRequest
          "Error: Missing or invalid parameters. Valid regions: usa, ca, mx, uk, au, cl, fr, it, za, nz, ee",
        cache := cache, calledUpstream := false } := by
  have hmsg : ("Error: Missing or invalid parameters. Valid regions: "
      ++ String.intercalate ", " validRegions)
      = "Error: Missing or invalid parameters. Valid regions: usa, ca, mx, uk, au, cl, fr, it, za, nz, ee" := by
    decide
  rcases h with h | h | h
  · simp [playlistHandler, h, hmsg]
  · simp [playlistHandler, h, hmsg]
  · have hcon : validRegions.contains (q.region.getD "") = false := by
      cases hc : validRegions.contains (q.region.getD "")
      · rfl
      · exact absurd (mem_of_contains hc) h
    simp [playlistHandler, hcon, hmsg]
    intro _ _ hmem
    exact absurd hmem h

/-- Witness for C7: an unknown region is rejected. -/
theorem playlist_invalid_params_witness :
    playlistHandler noCatalog noChannel []
        { apikey := some "k", region := some "narnia", refresh := none } 0
      = { response := .badRequest "Error: Missing or invalid parameters. Valid regions: usa, ca, mx, uk, au, cl, fr, it, za, nz, ee",
          cache := [], calledUpstream := false } :=
  playlist_invalid_params noCatalog noChannel []
    { apikey := some "k", region := some "narnia", refresh := none } 0
    (Or.inr (Or.inr (by decide)))

/--
C8: when the upstream catalog fetch of a rebuild fails, `fetchAndCache`
leaves the cache exactly as it was — the previously stored entry for the
key is neither deleted nor overwritten and every key reads as before.
-/
theorem fetchAndCache_failure_preserves (cf : String → String → Option Catalog)
    (fa : String → String → Nat → Option M3uResponse) (cache : Cache)
    (k r : String) (now : Int) (sportsOnly : Bool)
    (h : cf k r = none) :
    fetchAndCache cf fa cache k r now sportsOnly = cache ∧
    ∀ key, mapGet (fetchAndCache cf fa cache k r now sportsOnly) key = mapGet cache key := by
  have he : fetchAndCache cf fa cache k r now sportsOnly = cache := by
    unfold fetchAndCache
    rw [h]
  exact ⟨he, fun key => by rw [he]⟩

/-- Witness for C8. -/
theorem fetchAndCache_failure_preserves_witness :
    fetchAndCache noCatalog noChannel [("k_usa", { m3u := "OLD", timestamp := 0 })]
        "k" "usa" 99 false = [("k_usa", { m3u := "OLD", timestamp := 0 })] :=
  (fetchAndCache_failure_preserves noCatalog noChannel
    [("k_usa", { m3u := "OLD", timestamp := 0 })] "k" "usa" 99 false rfl).1

/--
C9 counterexample: with `regions` supplied as the empty string, every
comma-separated token is invalid and the claim demands a 400, but the
handler treats the falsy value like an omitted parameter, builds for the
default region `usa`, caches under `k_sports_usa`, and answers 200.
-/
theorem sports_empty_regions_counterexample :
    (sportsHandler noCatalog noChannel []
        { apikey := some "k", regions := some "", refresh := none } 0
      = { response := .ok "#EXTM3U",
          cache := [("k_sports_usa", { m3u := "#EXTM3U", timestamp := 0 })],
          calledUpstream := true }) ∧
    (sportsHandler noCatalog noChannel []
        { apikey := some "k", regions := some "", refresh := none } 0).response
      ≠ .badRequest "Error: No valid regions provided. Valid regions: usa, ca, mx, uk, au, cl, fr, it, za, nz, ee" := by
  exact ⟨by decide, by decide⟩

/--
C9 (amended): on `/sports-playlist` with apikey present, an omitted — or
supplied-but-empty, which JS truthiness treats the same — `regions`
parameter proceeds with the single default region `usa`; a non-empty
`regions` value is split on commas, tokens trimmed, and every token not
in the valid set dropped; with at least one valid token the handler
proceeds with exactly that list, and with none it answers 400 without
building or touching the cache.
-/
theorem sports_region_parsing (cf : String → String → Option Catalog)
    (fa : String → String → Nat → Option M3uResponse) (cache : Cache)
    (k s : String) (refresh : Option String) (now : Int) (hk : k ≠ "") :
    (sportsHandler cf fa cache { apikey := some k, regions := none, refresh := refresh } now
       = sportsServe cf fa cache k ["usa"] refresh now) ∧
    (sportsHandler cf fa cache { apikey := some k, regions := some "", refresh := refresh } now
       = sportsServe cf fa cache k ["usa"] refresh now) ∧
    (∀ t ∈ parseRegionList s, t ∈ validRegions) ∧
    (s ≠ "" → parseRegionList s ≠ [] →
      sportsHandler cf fa cache { apikey := some k, regions := some s, refresh := refresh } now
        = sportsServe cf fa cache k (parseRegionList s) refresh now) ∧
    (s ≠ "" → parseRegionList s = [] →
      sportsHandler cf fa cache { apikey := some k, regions := some s, refresh := refresh } now
        = { response := .badRequest "Error: No valid regions provided. Valid regions: usa, ca, mx, uk, au, cl, fr, it, za, nz, ee",
            cache := cache, calledUpstream := false }) := by
  have hmsg : ("Error: No valid regions provided. Valid regions: "
      ++ String.intercalate ", " validRegions)
      = "Error: No valid regions provided. Valid regions: usa, ca, mx, uk, au, cl, fr, it, za, nz, ee" := by
    decide
  refine ⟨?_, ?_, ?_, ?_, ?_⟩
  · simp [sportsHandler, truthy, hk]
  · simp [sportsHandler, truthy, hk]
  · intro t ht
    exact mem_of_contains (List.mem_filter.mp ht).2
  · intro hs hne
    have hemp : (parseRegionList s).isEmpty = false := by
      cases hl : parseRegionList s
      · exact absurd hl hne
      · rfl
    simp [sportsHandler, truthy, hk, hs, hemp]
  · intro hs hemp
    have hempty : (parseRegionList s).isEmpty = true := by rw [hemp]; rfl
    simp [sportsHandler, truthy, hk, hs, hempty, hmsg]

/-- Witness for C9 (amended): `regions=xx,yy` has no valid token → 400,
cache untouched, no upstream call. -/
theorem sports_region_parsing_witness :
    sportsHandler noCatalog noChannel []
        { apikey := some "k", regions := some "xx,yy", refresh := none } 0
      = { response := .badRequest "Error: No valid regions provided. Valid regions: usa, ca, mx, uk, au, cl, fr, it, za, nz, ee",
          cache := [], calledUpstream := false } :=
  (sports_region_parsing noCatalog noChannel [] "k" "xx,yy" none 0
    (by decide)).2.2.2.2 (by decide) (by decide)

/-- The `/playlist` 500 condition, standalone: the rebuild path answers
500 exactly when the catalog fetch failed and no prior entry exists. -/
theorem playlistRebuild_500_iff (cf : String → String → Option Catalog)
    (fa : String → String → Nat → Option M3uResponse) (cache : Cache)
    (k r : String) (now : Int) :
    (playlistRebuild cf fa cache k r now).response
        = .serverError "Unable to generate playlist"
      ↔ cf k r = none ∧ mapGet cache (k ++ "_" ++ r) = none := by
  cases hcf : cf k r with
  | none =>
    have hfc : fetchAndCache cf fa cache k r now false = cache := by
      unfold fetchAndCache
      rw [hcf]
    simp only [playlistRebuild, hfc]
    cases hm : mapGet cache (k ++ "_" ++ r) with
    | none => simp [hm]
    | some entry => simp [hm]
  | some cat =>
    have hfc : fetchAndCache cf fa cache k r now false
        = mapSet cache (k ++ "_" ++ r)
            { m3u := buildM3U cat (fa k) false, timestamp := now } := by
      unfold fetchAndCache
      rw [hcf]
      simp [fetchAndCacheKey]
    simp only [playlistRebuild, hfc, mapGet_mapSet_self]
    simp [hcf]

/--
C10: on the `/playlist` rebuild path, a successful catalog fetch always
yields a 200 with the freshly built playlist, stored under the key — even
when every channel contributes no entry, in which case the body is exactly
`#EXTM3U`; the 500 answer occurs exactly when the catalog fetch failed and
no prior entry exists for the key, and the full handler answers 500 only
under that condition.
-/
theorem playlist_build_success_or_500 (cf : String → String → Option Catalog)
    (fa : String → String → Nat → Option M3uResponse) (cache : Cache)
    (k r : String) (now : Int) :
    (∀ cat, cf k r = some cat →
      playlistRebuild cf fa cache k r now =
        { response := .ok (buildM3U cat (fa k) false),
          cache := mapSet cache (k ++ "_" ++ r)
            { m3u := buildM3U cat (fa k) false, timestamp := now },
          calledUpstream := true }) ∧
    (∀ cat : Catalog,
      (∀ ch ∈ cat.metas, m3uEntryFor false ((getChannelM3u (fa k ch.id) 3).result) = none) →
      buildM3U cat (fa k) false = "#EXTM3U") ∧
    ((playlistRebuild cf fa cache k r now).response
        = .serverError "Unable to generate playlist"
      ↔ cf k r = none ∧ mapGet cache (k ++ "_" ++ r) = none) ∧
    (∀ q : PlaylistQuery,
      (playlistHandler cf fa cache q now).response
          = .serverError "Unable to generate playlist" →
      cf (q.apikey.getD "") (q.region.getD "") = none ∧
      mapGet cache ((q.apikey.getD "") ++ "_" ++ (q.region.getD "")) = none) := by
  refine ⟨?_, ?_, playlistRebuild_500_iff cf fa cache k r now, ?_⟩
  · intro cat hcf
    have hfc : fetchAndCache cf fa cache k r now false
        = mapSet cache (k ++ "_" ++ r)
            { m3u := buildM3U cat (fa k) false, timestamp := now } := by
      unfold fetchAndCache
      rw [hcf]
      simp [fetchAndCacheKey]
    simp only [playlistRebuild, hfc, mapGet_mapSet_self]
  · intro cat hnone
    rw [buildM3U, pushEntries_eq_filterMap]
    have hfm : (resultsOf (fa k) cat).filterMap (m3uEntryFor false) = [] := by
      rw [List.filterMap_eq_nil_iff]
      intro res hres
      rcases List.mem_map.mp hres with ⟨ch, hch, hchr⟩
      rw [← hchr]
      exact hnone ch hch
    rw [hfm]
    rfl
  · intro q hresp
    by_cases hguard : ((q.apikey.getD "" == "") || (q.region.getD "" == "")
        || !(validRegions.contains (q.region.getD ""))) = true
    · simp only [playlistHandler] at hresp
      rw [if_pos hguard] at hresp
      simp at hresp
    · simp only [playlistHandler] at hresp
      rw [if_neg hguard] at hresp
      split at hresp
      · rename_i entry heq
        split at hresp
        · simp at hresp
        · have h500 := (playlistRebuild_500_iff cf fa cache _ _ now).mp hresp
          rw [heq] at h500
          exact Option.noConfusion h500.2
      · exact (playlistRebuild_500_iff cf fa cache _ _ now).mp hresp

/-- Witness for C10: with an empty catalog every hypothesis of the success
conjunct holds and the body is the bare header. -/
theorem playlist_build_success_or_500_witness :
    playlistRebuild okCatalog noChannel [] "k" "usa" 7
      = { response := .ok (buildM3U { metas := [] } (noChannel "k") false),
          cache := mapSet [] ("k" ++ "_" ++ "usa")
            { m3u := buildM3U { metas := [] } (noChannel "k") false, timestamp := 7 },
          calledUpstream := true } :=
  (playlist_build_success_or_500 okCatalog noChannel [] "k" "usa" 7).1
    { metas := [] } rfl

/--
C1 (refuting evaluation): the daily refresh pass does not re-run the build
that produced a sports key.  The key `k_sports_usa` — written by the
sports endpoint for regions `[usa]` — is split on `'_'` into apikey `k`
and region `sports`; the pass therefore runs a plain-mode rebuild for the
nonexistent region `sports`, which fails even against a healthy upstream,
leaving the entry stale, whereas the build that created the key (which
would overwrite it) succeeds.
-/
theorem daily_refresh_key_shape_bug :
    refreshKeyParts "k_sports_usa" = ("k", "sports") ∧
    validRegions.contains "sports" = false ∧
    dailyRefreshPass healthyCatalogFetch noChannel staleSportsCache 999
      = staleSportsCache ∧
    sportsCacheKey "k" ["usa"] = "k_sports_usa" ∧
    (sportsBuild healthyCatalogFetch noChannel staleSportsCache "k" ["usa"] 999).cache
      ≠ staleSportsCache := by
  refine ⟨by decide, by decide, by decide, by decide, by decide⟩

end IPTV

